import Mathlib

/-!
Shallow embedding of `convert.py` (cricket statistics converter).

Modelling conventions:
* A raw CSV cell is `Option Cell`: `none` stands for an absent column (so
  `dict.get` misses), `some Cell.blank` for a blank cell that pandas hands
  over as NaN — a value on which `pd.isna` holds but which is *truthy* in
  Python — and `some (Cell.text s)` for textual content.
* Python numbers produced by `clean_numeric_value` are modelled as `ℚ`
  (Python's arbitrary-precision `int` and `float` of finitely many decimal
  digits are represented exactly; no claim depends on binary rounding).
* `clean_numeric_value` takes the `pd.isna` view of a value: an absent
  value and NaN both enter it as `none`.
* Dictionaries keyed by fixed column names become structures with one field
  per column.
* String manipulation is carried out on `List Char` with structurally
  recursive functions mirroring the Python primitives (`str.split`,
  `str.strip`, `str.replace` with an empty replacement, `in`).
* Digits and letter case are ASCII, as in all the data the program reads.
-/

/-- Whitespace characters removed by Python's `str.strip()`. -/
def pyIsSpace (c : Char) : Bool :=
  c == ' ' || c == '\t' || c == '\n' || c == '\r' || c == '\x0b' || c == '\x0c'

/-- Python `str.strip()`: drop leading and trailing whitespace. -/
def pyStrip (cs : List Char) : List Char :=
  ((cs.dropWhile pyIsSpace).reverse.dropWhile pyIsSpace).reverse

/-- Python `s.replace(ch, "")` for a one-character pattern: delete every
occurrence of the character. -/
def pyRemoveChar (ch : Char) (cs : List Char) : List Char :=
  cs.filter (fun c => c != ch)

/-- Python `s.split(sep)` for a one-character separator. -/
def splitOnChar (sep : Char) : List Char → List (List Char)
  | [] => [[]]
  | c :: cs =>
      let rest := splitOnChar sep cs
      if c == sep then [] :: rest
      else
        match rest with
        | r :: rs => (c :: r) :: rs
        | [] => [[c]]

/-- Check that the first list is an initial segment of the second. -/
def startsWithList : List Char → List Char → Bool
  | [], _ => true
  | _ :: _, [] => false
  | a :: as, b :: bs => a == b && startsWithList as bs

/-- Check that the first list occurs contiguously inside the second,
matching Python's `in` on strings. -/
def containsList (p : List Char) : List Char → Bool
  | [] => p.isEmpty
  | b :: bs => startsWithList p (b :: bs) || containsList p bs

/-- Digit list to natural number, mirroring Python `int` on an all-digit string. -/
def digitsToNat (cs : List Char) : Nat :=
  cs.foldl (fun n c => n * 10 + (c.toNat - 48)) 0

/-- Exact value of Python `float` applied to a string made only of digits and
dots: succeeds iff there is exactly one dot and at least one digit. -/
def floatOfDigitsDot (cs : List Char) : Option ℚ :=
  match splitOnChar '.' cs with
  | [ip, fp] =>
      if ip.isEmpty ∧ fp.isEmpty then none
      else some ((digitsToNat ip : ℚ) +
        (digitsToNat fp : ℚ) / (10 : ℚ) ^ fp.length)
  | _ => none

/-- Embedding of `clean_numeric_value` (convert.py lines 8–25): clean and
convert numeric values, handling "-", "*" and other non-numeric characters. -/
def clean_numeric_value (value : Option String) : ℚ :=
  match value with
  | none => 0
  | some v =>
      if v = "-" ∨ v = "" then 0
      else
        let str_val := pyStrip (pyRemoveChar ',' (pyRemoveChar '*' v.toList))
        let filtered := str_val.filter (fun c => c.isDigit || c == '.')
        if filtered.contains '.' then
          match floatOfDigitsDot filtered with
          | some q => q
          | none => 0
        else
          match filtered with
          | [] => 0
          | cs => (digitsToNat cs : ℚ)

/-- Non-overlapping left-to-right matches of the regex `\d{4}`, as
`re.findall` produces them, each converted to its numeric value. -/
def findFourDigitRuns : List Char → List Nat
  | c1 :: c2 :: c3 :: c4 :: rest =>
      if c1.isDigit ∧ c2.isDigit ∧ c3.isDigit ∧ c4.isDigit then
        digitsToNat [c1, c2, c3, c4] :: findFourDigitRuns rest
      else
        findFourDigitRuns (c2 :: c3 :: c4 :: rest)
  | _ :: rest => findFourDigitRuns rest
  | [] => []

/-- Embedding of `determine_era` (convert.py lines 28–46): era from the last
four-digit year occurring in the span string. -/
def determine_era (span : Option String) : String :=
  match span with
  | none => "Unknown"
  | some s =>
      if s = "-" then "Unknown"
      else
        match (findFourDigitRuns s.toList).getLast? with
        | none => "Unknown"
        | some last_year =>
            if last_year ≥ 2010 then "Modern"
            else if last_year ≥ 1990 then "Classic"
            else "Vintage"

/-- Regional/multi-national teams excluded by `get_country_from_name`. -/
def exclude_teams : List String :=
  ["Asia", "ICC", "Afr", "Africa", "World", "Rest", "XI"]

/-- Country-code to full-name mapping of `get_country_from_name`, in source
order. -/
def country_mapping : List (String × String) :=
  [("SL", "Sri Lanka"), ("SA", "South Africa"), ("WI", "West Indies"),
   ("NZ", "New Zealand"), ("AUS", "Australia"), ("INDIA", "India"),
   ("ENG", "England"), ("PAK", "Pakistan"), ("BDESH", "Bangladesh"),
   ("ZIM", "Zimbabwe"), ("AFG", "Afghanistan"), ("IRE", "Ireland"),
   ("SCOT", "Scotland"), ("Neth", "Netherlands"), ("UAE", "UAE"),
   ("KENYA", "Kenya"), ("Can", "Canada"), ("Ber", "Bermuda"),
   ("USA", "USA"), ("Nep", "Nepal"), ("HKG", "Hong Kong"),
   ("Oman", "Oman"), ("PNG", "Papua New Guinea"), ("NAM", "Namibia")]

/-- Fallback substring patterns of `get_country_from_name`, in source order. -/
def common_patterns : List (String × String) :=
  [("India", "India"), ("Australia", "Australia"), ("England", "England"),
   ("Pakistan", "Pakistan"), ("South Africa", "South Africa"),
   ("West Indies", "West Indies"), ("Sri Lanka", "Sri Lanka"),
   ("New Zealand", "New Zealand"), ("Bangladesh", "Bangladesh"),
   ("Zimbabwe", "Zimbabwe")]

/-- Content of `player_name.split("(")[1].split(")")[0]`: the text after the
first `(` (up to the next `(`), truncated at the first `)`. -/
def parenSegment (cs : List Char) : List Char :=
  (splitOnChar ')' ((splitOnChar '(' cs).getD 1 [])).getD 0 []

/-- Per-token resolution step of `get_country_from_name`: map a code through
`country_mapping` (exact, case-sensitive key match) or keep it verbatim. -/
def resolveToken (t : List Char) : String :=
  match (country_mapping.find? (fun p => p.1.toList == t)).map (fun p => p.2) with
  | some full => full
  | none => String.mk t

/-- Fallback loop of `get_country_from_name`: first pattern of
`common_patterns` whose lowercasing occurs in the lowercased name. -/
def fallbackCountry (player_name : String) : String :=
  match common_patterns.find?
      (fun p => containsList (p.1.toList.map Char.toLower)
        (player_name.toList.map Char.toLower)) with
  | some p => p.2
  | none => "Unknown"

/-- Embedding of `get_country_from_name` (convert.py lines 49–125). -/
def get_country_from_name (player_name : String) : String :=
  let cs := player_name.toList
  if cs.contains '(' ∧ cs.contains ')' then
    let country_part := parenSegment cs
    let countries := (splitOnChar '/' country_part).map pyStrip
    let valid_countries := countries.foldl
      (fun acc country =>
        if (exclude_teams.map String.toList).contains country then acc
        else acc ++ [resolveToken country]) []
    match valid_countries with
    | c :: _ => c
    | [] => fallbackCountry player_name
  else fallbackCountry player_name

/-- Raw cell value as pandas hands it over: a blank cell arrives as NaN (a
float, on which `pd.isna` holds but which is truthy in Python), any other
cell as its text. -/
inductive Cell where
  | blank : Cell
  | text : String → Cell
deriving DecidableEq

/-- Python truthiness of a raw cell value: NaN is truthy, a string is
truthy iff it is nonempty. -/
def truthyVal : Cell → Bool
  | Cell.blank => true
  | Cell.text s => s != ""

/-- Python truthiness of `dict.get(key)`: `None` (absent column) is falsy,
otherwise the cell value's own truthiness. -/
def truthyCell : Option Cell → Bool
  | none => false
  | some c => truthyVal c

/-- View of a value as `clean_numeric_value` receives it: `pd.isna` holds
of an absent value and of NaN alike, so both enter the cleaner as `none`. -/
def cellToOptString : Option Cell → Option String
  | none => none
  | some Cell.blank => none
  | some (Cell.text s) => some s

/-- `clean_numeric_value` applied to a raw cell fetched with `dict.get`. -/
def cleanCell (c : Option Cell) : ℚ :=
  clean_numeric_value (cellToOptString c)

/-- View of the combined span as `determine_era` receives it: a NaN span is
exactly the `pd.isna` case. -/
def spanToOptString : Cell → Option String
  | Cell.blank => none
  | Cell.text s => some s

/-- Combined batting statistics handed to `determine_role` (keys `Runs`,
`Mat`, `Ave`, `Span` of `combined_batting`); the span keeps the raw value
the source assigned, which may be NaN. -/
structure BatAcc where
  runs : ℚ
  mat : ℚ
  ave : ℚ
  span : Cell
deriving DecidableEq

/-- Combined bowling statistics (keys `Wkts`, `Mat`, `Ave` of
`combined_bowling`). -/
structure BowlAcc where
  wkts : ℚ
  mat : ℚ
  ave : ℚ
deriving DecidableEq

/-- Combined fielding statistics (keys `Dis`, `St` of `combined_fielding`). -/
structure FieldAcc where
  dis : ℚ
  st : ℚ
deriving DecidableEq

/-- Embedding of `determine_role` (convert.py lines 128–156). -/
def determine_role (batting : BatAcc) (bowling : BowlAcc)
    (fielding : FieldAcc) : String :=
  let batting_avg := batting.ave
  let bowling_avg := bowling.ave
  let wickets := bowling.wkts
  let runs := batting.runs
  let dismissals := fielding.dis
  let stumpings := fielding.st
  if stumpings > 5 ∨ (dismissals > 20 ∧ stumpings > 0) then "Wicket-keeper"
  else if (runs > 1000 ∧ wickets > 20) ∨
      (batting_avg > 25 ∧ bowling_avg > 0 ∧ bowling_avg < 35 ∧ wickets > 10)
    then "All-rounder"
  else if wickets > runs / 100 ∧ wickets > 50 then "Bowler"
  else if wickets > 100 then "Bowler"
  else "Batsman"

/-- Raw batting CSV row, restricted to the columns the pipeline reads
(`Runs`, `Mat`, `Ave`, `Span`); `none` is an absent column. -/
structure BatRow where
  runsCell : Option Cell := none
  matCell : Option Cell := none
  aveCell : Option Cell := none
  spanCell : Option Cell := none
deriving DecidableEq

/-- Raw bowling CSV row, restricted to `Wkts`, `Mat`, `Ave`. -/
structure BowlRow where
  wktsCell : Option Cell := none
  matCell : Option Cell := none
  aveCell : Option Cell := none
deriving DecidableEq

/-- Raw fielding CSV row, restricted to `Dis`, `St`. -/
structure FieldRow where
  disCell : Option Cell := none
  stCell : Option Cell := none
deriving DecidableEq

/-- Per-player accumulated raw rows, one optional row per category and
format (the `players_data` entry for one player). -/
structure PlayerData where
  batTest : Option BatRow := none
  batODI : Option BatRow := none
  batT20 : Option BatRow := none
  bowlTest : Option BowlRow := none
  bowlODI : Option BowlRow := none
  bowlT20 : Option BowlRow := none
  fieldTest : Option FieldRow := none
  fieldODI : Option FieldRow := none
  fieldT20 : Option FieldRow := none
deriving DecidableEq

/-- One iteration of the batting merge loop (convert.py lines 214–224):
sum `Runs` and `Mat`; set `Ave` only while the accumulated average is
falsy (zero) and the raw cell is truthy; set `Span` to the *raw* cell
value — possibly NaN, since NaN is truthy — only while the accumulated
span is falsy (the empty string). -/
def batStep (acc : BatAcc) (row : Option BatRow) : BatAcc :=
  match row with
  | none => acc
  | some r =>
      { runs := acc.runs + cleanCell r.runsCell
        mat := acc.mat + cleanCell r.matCell
        ave := if acc.ave = 0 ∧ truthyCell r.aveCell = true then
            cleanCell r.aveCell
          else acc.ave
        span := if truthyVal acc.span = false ∧ truthyCell r.spanCell = true
          then r.spanCell.getD (Cell.text "")
          else acc.span }

/-- Batting merge over formats in source priority order Test, ODI, T20. -/
def combineBatting (d : PlayerData) : BatAcc :=
  [d.batTest, d.batODI, d.batT20].foldl batStep ⟨0, 0, 0, Cell.text ""⟩

/-- One iteration of the bowling merge loop (convert.py lines 238–246). -/
def bowlStep (acc : BowlAcc) (row : Option BowlRow) : BowlAcc :=
  match row with
  | none => acc
  | some r =>
      { wkts := acc.wkts + cleanCell r.wktsCell
        mat := acc.mat + cleanCell r.matCell
        ave := if acc.ave = 0 ∧ truthyCell r.aveCell = true then
            cleanCell r.aveCell
          else acc.ave }

/-- Bowling merge over formats in source priority order Test, ODI, T20. -/
def combineBowling (d : PlayerData) : BowlAcc :=
  [d.bowlTest, d.bowlODI, d.bowlT20].foldl bowlStep ⟨0, 0, 0⟩

/-- One iteration of the fielding merge loop (convert.py lines 258–262). -/
def fieldStep (acc : FieldAcc) (row : Option FieldRow) : FieldAcc :=
  match row with
  | none => acc
  | some r =>
      { dis := acc.dis + cleanCell r.disCell
        st := acc.st + cleanCell r.stCell }

/-- Fielding merge over formats in source priority order Test, ODI, T20. -/
def combineFielding (d : PlayerData) : FieldAcc :=
  [d.fieldTest, d.fieldODI, d.fieldT20].foldl fieldStep ⟨0, 0⟩

/-- Final output record (`player_obj` in convert.py lines 286–299). -/
structure PlayerRecord where
  name : String
  country : String
  role : String
  matchesNum : ℚ
  runs : ℚ
  wickets : ℚ
  average : ℚ
  era : String
deriving DecidableEq

/-- Per-player body of the conversion loop (convert.py lines 201–301):
combine the formats, apply the inclusion filter, and build the output
record; `none` means the player is skipped. -/
def processPlayer (player_name : String) (d : PlayerData) :
    Option PlayerRecord :=
  let cb := combineBatting d
  let cw := combineBowling d
  let cf := combineFielding d
  let total_matches := max cb.mat cw.mat
  if total_matches < 100 ∨ (total_matches = 0 ∧ cb.runs = 0 ∧ cw.wkts = 0)
    then none
  else
    let role := determine_role cb cw cf
    let clean_name :=
      if player_name.toList.contains '(' then
        String.mk (pyStrip ((splitOnChar '(' player_name.toList).getD 0 []))
      else player_name
    some
      { name := clean_name
        country := get_country_from_name player_name
        role := role
        matchesNum := total_matches
        runs := cb.runs
        wickets := cw.wkts
        average :=
          if cb.ave > 0 then cb.ave
          else if role = "Bowler" then cw.ave else 0
        era := determine_era (spanToOptString cb.span) }

/-- Sort key of the final ordering (convert.py line 308). -/
def sortKey (p : PlayerRecord) : ℚ :=
  p.runs + p.wickets * 50

/-- Descending comparison used to model Python's stable
`sort(key=..., reverse=True)`. -/
def sortLE (a b : PlayerRecord) : Bool :=
  decide (sortKey b ≤ sortKey a)

/-- Embedding of the per-player part of `process_cricket_data`
(convert.py lines 198–310): ingestion is abstracted as the association list
of per-player accumulated rows, in insertion order. -/
def process_cricket_data (players : List (String × PlayerData)) :
    List PlayerRecord :=
  (players.filterMap (fun p => processPlayer p.1 p.2)).mergeSort sortLE

/-- First nonzero entry of a list of rationals, 0 if none. -/
def firstNonzeroQ : List ℚ → ℚ
  | [] => 0
  | x :: l => if x ≠ 0 then x else firstNonzeroQ l

/-- First nonempty entry of a list of strings, "" if none. -/
def firstNonemptyStr : List String → String
  | [] => ""
  | s :: l => if s ≠ "" then s else firstNonemptyStr l

/-- Cleaned batting average contributed by one optional row. -/
def batAveOf (r : Option BatRow) : ℚ :=
  match r with
  | none => 0
  | some r => cleanCell r.aveCell

/-- Cleaned runs contributed by one optional row. -/
def batRunsOf (r : Option BatRow) : ℚ :=
  match r with
  | none => 0
  | some r => cleanCell r.runsCell

/-- Cleaned batting matches contributed by one optional row. -/
def batMatOf (r : Option BatRow) : ℚ :=
  match r with
  | none => 0
  | some r => cleanCell r.matCell

/-- Raw span value contributed by one optional row: the value
`dict.get("Span", "")` returns, possibly NaN. -/
def rawSpanOf (r : Option BatRow) : Cell :=
  match r with
  | none => Cell.text ""
  | some r => r.spanCell.getD (Cell.text "")

/-- Textual span content of one optional row, as the claim reads it: blank
(NaN) and absent cells have no text. -/
def spanTextOf (r : Option BatRow) : String :=
  match r with
  | none => ""
  | some r =>
      match r.spanCell with
      | none => ""
      | some Cell.blank => ""
      | some (Cell.text s) => s

/-- Cleaned bowling average contributed by one optional row. -/
def bowlAveOf (r : Option BowlRow) : ℚ :=
  match r with
  | none => 0
  | some r => cleanCell r.aveCell

/-- Cleaned wickets contributed by one optional row. -/
def bowlWktsOf (r : Option BowlRow) : ℚ :=
  match r with
  | none => 0
  | some r => cleanCell r.wktsCell

/-- Cleaned bowling matches contributed by one optional row. -/
def bowlMatOf (r : Option BowlRow) : ℚ :=
  match r with
  | none => 0
  | some r => cleanCell r.matCell

/-- First truthy raw span value of a list, the empty string if none: what
the source's first-wins assignment accumulates. -/
def firstTruthyCell : List Cell → Cell
  | [] => Cell.text ""
  | c :: l => if truthyVal c = true then c else firstTruthyCell l

/-- Declarative restatement of the numeric normalizer from the claim's
words: keep only digits and dots of the raw text, then parse (float when a
dot remains, integer otherwise, 0 on empty or failure). -/
def cleanSpec (value : Option String) : ℚ :=
  match value with
  | none => 0
  | some v =>
      let filtered := v.toList.filter (fun c => c.isDigit || c == '.')
      if filtered.contains '.' then
        match floatOfDigitsDot filtered with
        | some q => q
        | none => 0
      else
        match filtered with
        | [] => 0
        | cs => (digitsToNat cs : ℚ)

/-- Ten full country names of the fallback table, in source order. -/
def knownCountries : List String :=
  ["India", "Australia", "England", "Pakistan", "South Africa",
   "West Indies", "Sri Lanka", "New Zealand", "Bangladesh", "Zimbabwe"]

/-- Declarative restatement of the fallback from the claim's words:
first of the ten known country names whose lowercasing occurs in the
lowercased player name, else "Unknown". -/
def fallbackSpec (player_name : String) : String :=
  match knownCountries.find?
      (fun c => containsList (c.toList.map Char.toLower)
        (player_name.toList.map Char.toLower)) with
  | some c => c
  | none => "Unknown"

/-- Declarative restatement of the country resolver from the claim's words:
split the parenthesized segment on "/", trim, discard excluded regional
tokens, map code tokens through the table (keeping unmatched tokens
verbatim), and return the first survivor; fall back to case-insensitive
substring matching otherwise. -/
def countrySpec (player_name : String) : String :=
  let cs := player_name.toList
  if cs.contains '(' ∧ cs.contains ')' then
    let toks := (splitOnChar '/' (parenSegment cs)).map pyStrip
    let surv := (toks.filter
      (fun t => !((exclude_teams.map String.toList).contains t))).map
        resolveToken
    match surv.head? with
    | some c => c
    | none => fallbackSpec player_name
  else fallbackSpec player_name

/-- Characters kept by the numeric filter of `clean_numeric_value`. -/
def keepNumChar (c : Char) : Bool :=
  c.isDigit || c == '.'

lemma floatOfDigitsDot_nonneg (cs : List Char) (q : ℚ)
    (h : floatOfDigitsDot cs = some q) : 0 ≤ q := by
  unfold floatOfDigitsDot at h
  rcases hs : splitOnChar '.' cs with _ | ⟨ip, _ | ⟨fp, _ | _⟩⟩ <;> rw [hs] at h
  · simp at h
  · simp at h
  · dsimp only at h
    split_ifs at h with hd
    simp only [Option.some.injEq] at h
    rw [← h]
    positivity
  · simp at h

lemma cleanCell_of_falsy (c : Option Cell) (h : truthyCell c = false) :
    cleanCell c = 0 := by
  rcases c with _ | (_ | s)
  · rfl
  · simp [truthyCell, truthyVal] at h
  · simp only [truthyCell, truthyVal, bne_eq_false_iff_eq] at h
    subst h
    decide

lemma falsy_eq_empty (c : Cell) (h : truthyVal c = false) :
    c = Cell.text "" := by
  rcases c with _ | s
  · simp [truthyVal] at h
  · simp only [truthyVal, bne_eq_false_iff_eq] at h
    rw [h]

lemma filter_dropWhile_eq {p q : Char → Bool}
    (h : ∀ c, q c = true → p c = false) :
    ∀ cs : List Char, (cs.dropWhile q).filter p = cs.filter p := by
  intro cs
  induction cs with
  | nil => rfl
  | cons c cs ih =>
      by_cases hq : q c = true
      · simp [List.dropWhile, hq, ih, List.filter, h c hq]
      · simp [List.dropWhile, hq]

lemma filter_pyStrip_eq {p : Char → Bool}
    (h : ∀ c, pyIsSpace c = true → p c = false) (cs : List Char) :
    (pyStrip cs).filter p = cs.filter p := by
  unfold pyStrip
  rw [List.filter_reverse, filter_dropWhile_eq h, List.filter_reverse,
    List.reverse_reverse, filter_dropWhile_eq h]

lemma filter_pyRemoveChar_eq {p : Char → Bool} {ch : Char}
    (h : p ch = false) (cs : List Char) :
    (pyRemoveChar ch cs).filter p = cs.filter p := by
  unfold pyRemoveChar
  rw [List.filter_filter]
  apply List.filter_congr
  intro a _
  by_cases ha : a = ch
  · subst ha
    simp [h]
  · simp [ha]

lemma clean_filter_eq (v : String) :
    (pyStrip (pyRemoveChar ',' (pyRemoveChar '*' v.toList))).filter keepNumChar
      = v.toList.filter keepNumChar := by
  rw [filter_pyStrip_eq, filter_pyRemoveChar_eq, filter_pyRemoveChar_eq]
  · decide
  · decide
  · intro c hc
    have hc6 : c = ' ' ∨ c = '\t' ∨ c = '\n' ∨ c = '\r' ∨ c = '\x0b' ∨
        c = '\x0c' := by
      simpa [pyIsSpace, or_assoc] using hc
    rcases hc6 with rfl | rfl | rfl | rfl | rfl | rfl <;> decide

/-- C6: `clean_numeric_value` is total and never raises: absent/empty/"-"
inputs yield 0; otherwise "*", "," and whitespace are stripped, every
remaining character that is not a digit or decimal point is removed, the
remainder is parsed as a float if it contains a decimal point and as an
integer otherwise (0 for the empty string), and any parse failure yields 0;
in particular clean("1,234") = 1234, clean("50.25*") = 50.25,
clean("abc") = 0, clean(None) = 0. -/
theorem clean_numeric_value_correct :
    (∀ v : Option String, clean_numeric_value v = cleanSpec v) ∧
    clean_numeric_value none = 0 ∧
    clean_numeric_value (some "") = 0 ∧
    clean_numeric_value (some "-") = 0 ∧
    clean_numeric_value (some "1,234") = 1234 ∧
    clean_numeric_value (some "50.25*") = 50.25 ∧
    clean_numeric_value (some "abc") = 0 := by
  refine ⟨?_, rfl, by decide, by decide, by decide, ?_, by decide⟩
  · intro v
    rcases v with _ | s
    · rfl
    · by_cases hv : s = "-" ∨ s = ""
      · rcases hv with rfl | rfl <;> decide
      · simp only [clean_numeric_value, cleanSpec, if_neg hv]
        rw [show (fun c => c.isDigit || c == '.') = keepNumChar from rfl,
          clean_filter_eq]
  · have h1 : digitsToNat ['5', '0'] = 50 := by decide
    have h2 : digitsToNat ['2', '5'] = 25 := by decide
    simp +decide [clean_numeric_value, floatOfDigitsDot, pyStrip,
      pyRemoveChar, splitOnChar, h1, h2]
    norm_num

/-- C9: `clean_numeric_value` always returns a non-negative number: the
minus sign is removed with all other non-digit, non-dot characters, so
"-5" yields 5 and no input produces a negative result. -/
theorem clean_numeric_value_nonneg :
    (∀ v : Option String, 0 ≤ clean_numeric_value v) ∧
    clean_numeric_value (some "-5") = 5 := by
  refine ⟨?_, by decide⟩
  intro v
  rcases v with _ | s
  · simp [clean_numeric_value]
  · simp only [clean_numeric_value]
    split_ifs
    · exact le_refl 0
    · split
      · rename_i q hq
        exact floatOfDigitsDot_nonneg _ q hq
      · exact le_refl 0
    · split
      · exact le_refl 0
      · exact Nat.cast_nonneg _

/-- C5: `determine_era` returns "Unknown" on an absent span, the
placeholder "-", or a span without a 4-digit sequence; otherwise the last
4-digit number decides: ≥ 2010 "Modern", 1990–2009 "Classic", < 1990
"Vintage"; end year 2010 gives "Modern" and 1990 gives "Classic". -/
theorem determine_era_correct :
    determine_era none = "Unknown" ∧
    determine_era (some "-") = "Unknown" ∧
    (∀ s : String, findFourDigitRuns s.toList = [] →
      determine_era (some s) = "Unknown") ∧
    (∀ (s : String) (y : Nat), (findFourDigitRuns s.toList).getLast? = some y →
      determine_era (some s) =
        (if y ≥ 2010 then "Modern"
         else if y ≥ 1990 then "Classic" else "Vintage")) ∧
    determine_era (some "X-2010") = "Modern" ∧
    determine_era (some "X-1990") = "Classic" := by
  refine ⟨rfl, by decide, ?_, ?_, by decide, by decide⟩
  · intro s h
    simp only [String.toList] at h
    simp [determine_era, h]
  · intro s y h
    have hs : s ≠ "-" := by
      rintro rfl
      rw [show findFourDigitRuns "-".toList = [] from rfl] at h
      simp at h
    simp only [String.toList] at h
    simp [determine_era, hs, h]

/-- C1: `determine_role` returns exactly one of the four labels, applying
the rules in strict precedence order with the first matching rule winning
(wicket-keeper, then all-rounder, then bowler, then the batsman default);
in particular stumpings > 5 forces "Wicket-keeper" whatever the other
statistics are. -/
theorem determine_role_correct (b : BatAcc) (w : BowlAcc) (f : FieldAcc) :
    determine_role b w f ∈ ["Wicket-keeper", "All-rounder", "Bowler", "Batsman"] ∧
    determine_role b w f =
      (if f.st > 5 ∨ (f.dis > 20 ∧ f.st > 0) then "Wicket-keeper"
       else if (b.runs > 1000 ∧ w.wkts > 20) ∨
           (b.ave > 25 ∧ 0 < w.ave ∧ w.ave < 35 ∧ w.wkts > 10) then "All-rounder"
       else if (w.wkts > b.runs / 100 ∧ w.wkts > 50) ∨ w.wkts > 100 then "Bowler"
       else "Batsman") ∧
    (f.st > 5 → determine_role b w f = "Wicket-keeper") := by
  have hcas : determine_role b w f =
      (if f.st > 5 ∨ (f.dis > 20 ∧ f.st > 0) then "Wicket-keeper"
       else if (b.runs > 1000 ∧ w.wkts > 20) ∨
           (b.ave > 25 ∧ 0 < w.ave ∧ w.ave < 35 ∧ w.wkts > 10) then "All-rounder"
       else if (w.wkts > b.runs / 100 ∧ w.wkts > 50) ∨ w.wkts > 100 then "Bowler"
       else "Batsman") := by
    unfold determine_role
    dsimp only
    split_ifs <;> first | rfl | tauto
  refine ⟨?_, hcas, ?_⟩
  · rw [hcas]
    split_ifs <;> simp
  · intro hst
    rw [hcas, if_pos (Or.inl hst)]

/-- Witness for C5: the era claim instantiated at concrete spans. -/
theorem determine_era_correct_witness :
    determine_era (some "abc") = "Unknown" ∧
    determine_era (some "1985-1999") =
      (if 1999 ≥ 2010 then "Modern"
       else if 1999 ≥ 1990 then "Classic" else "Vintage") :=
  ⟨determine_era_correct.2.2.1 "abc" (by decide),
   determine_era_correct.2.2.2.1 "1985-1999" 1999 (by decide)⟩

/-- Witness for C1: a player with stumpings 10 whose batting and bowling
statistics also satisfy the all-rounder rule is labelled "Wicket-keeper". -/
theorem determine_role_correct_witness :
    determine_role ⟨2000, 0, 30, Cell.text ""⟩ ⟨100, 0, 20⟩ ⟨30, 10⟩
      = "Wicket-keeper" :=
  (determine_role_correct ⟨2000, 0, 30, Cell.text ""⟩ ⟨100, 0, 20⟩
    ⟨30, 10⟩).2.2
    (by norm_num)

lemma batFold_runs (rows : List (Option BatRow)) (acc : BatAcc) :
    (rows.foldl batStep acc).runs = acc.runs + (rows.map batRunsOf).sum := by
  induction rows generalizing acc with
  | nil => simp
  | cons r rows ih =>
      rcases r with _ | r
      · simp [List.foldl_cons, batStep, batRunsOf, ih]
      · rw [List.foldl_cons, ih]
        simp [batStep, batRunsOf]
        ring

lemma batFold_mat (rows : List (Option BatRow)) (acc : BatAcc) :
    (rows.foldl batStep acc).mat = acc.mat + (rows.map batMatOf).sum := by
  induction rows generalizing acc with
  | nil => simp
  | cons r rows ih =>
      rcases r with _ | r
      · simp [List.foldl_cons, batStep, batMatOf, ih]
      · rw [List.foldl_cons, ih]
        simp [batStep, batMatOf]
        ring

lemma batFold_ave_stay (rows : List (Option BatRow)) (acc : BatAcc)
    (h : acc.ave ≠ 0) : (rows.foldl batStep acc).ave = acc.ave := by
  induction rows generalizing acc with
  | nil => rfl
  | cons r rows ih =>
      rcases r with _ | r
      · exact ih acc h
      · have hstep : (batStep acc (some r)).ave = acc.ave := by
          simp [batStep, h]
        rw [List.foldl_cons, ih _ (by rw [hstep]; exact h), hstep]

lemma batFold_ave (rows : List (Option BatRow)) (acc : BatAcc)
    (h : acc.ave = 0) :
    (rows.foldl batStep acc).ave = firstNonzeroQ (rows.map batAveOf) := by
  induction rows generalizing acc with
  | nil => simpa [firstNonzeroQ] using h
  | cons r rows ih =>
      rw [List.foldl_cons, List.map_cons]
      rcases r with _ | r
      · rw [show batStep acc none = acc from rfl, ih acc h]
        simp [batAveOf, firstNonzeroQ]
      · by_cases ht : truthyCell r.aveCell = true
        · by_cases hz : cleanCell r.aveCell = 0
          · have hstep : (batStep acc (some r)).ave = 0 := by
              simp [batStep, h, ht, hz]
            rw [ih _ hstep]
            simp [firstNonzeroQ, batAveOf, hz]
          · have hstep : (batStep acc (some r)).ave
                = cleanCell r.aveCell := by
              simp [batStep, h, ht]
            rw [batFold_ave_stay rows _ (by rw [hstep]; exact hz), hstep]
            simp [firstNonzeroQ, batAveOf, hz]
        · have ht' : truthyCell r.aveCell = false := by simpa using ht
          have hz : cleanCell r.aveCell = 0 := cleanCell_of_falsy _ ht'
          have hstep : (batStep acc (some r)).ave = acc.ave := by
            simp [batStep, ht']
          rw [ih _ (by rw [hstep]; exact h)]
          simp [firstNonzeroQ, batAveOf, hz]

lemma rawSpanOf_falsy (r : BatRow) (h : truthyCell r.spanCell = false) :
    truthyVal (rawSpanOf (some r)) = false := by
  rcases hc : r.spanCell with _ | c
  · simp [rawSpanOf, hc, truthyVal]
  · rw [hc] at h
    simpa [rawSpanOf, hc, truthyCell] using h

lemma rawSpanOf_truthy (r : BatRow) (h : truthyCell r.spanCell = true) :
    truthyVal (rawSpanOf (some r)) = true := by
  rcases hc : r.spanCell with _ | c
  · rw [hc] at h
    simp [truthyCell] at h
  · rw [hc] at h
    simpa [rawSpanOf, hc, truthyCell] using h

lemma batFold_span_stay (rows : List (Option BatRow)) (acc : BatAcc)
    (h : truthyVal acc.span = true) :
    (rows.foldl batStep acc).span = acc.span := by
  induction rows generalizing acc with
  | nil => rfl
  | cons r rows ih =>
      rcases r with _ | r
      · exact ih acc h
      · have hstep : (batStep acc (some r)).span = acc.span := by
          simp [batStep, h]
        rw [List.foldl_cons, ih _ (by rw [hstep]; exact h), hstep]

lemma batFold_span (rows : List (Option BatRow)) (acc : BatAcc)
    (h : truthyVal acc.span = false) :
    (rows.foldl batStep acc).span = firstTruthyCell (rows.map rawSpanOf) := by
  induction rows generalizing acc with
  | nil => exact falsy_eq_empty _ h
  | cons r rows ih =>
      rw [List.foldl_cons, List.map_cons]
      rcases r with _ | r
      · rw [show batStep acc none = acc from rfl, ih acc h]
        simp [rawSpanOf, firstTruthyCell, truthyVal]
      · by_cases ht : truthyCell r.spanCell = true
        · have htr : truthyVal (rawSpanOf (some r)) = true :=
            rawSpanOf_truthy r ht
          have hstep : (batStep acc (some r)).span
              = r.spanCell.getD (Cell.text "") := by
            simp [batStep, h, ht]
          have hraw : rawSpanOf (some r) = r.spanCell.getD (Cell.text "") :=
            rfl
          rw [batFold_span_stay rows _ (by rw [hstep, ← hraw]; exact htr),
            hstep]
          have hpick : firstTruthyCell
              (rawSpanOf (some r) :: List.map rawSpanOf rows)
              = rawSpanOf (some r) := by
            simp [firstTruthyCell, htr]
          rw [hpick, hraw]
        · have ht' : truthyCell r.spanCell = false := by simpa using ht
          have hz : truthyVal (rawSpanOf (some r)) = false :=
            rawSpanOf_falsy r ht'
          have hstep : (batStep acc (some r)).span = acc.span := by
            simp [batStep, ht']
          rw [ih _ (by rw [hstep]; exact h)]
          simp [firstTruthyCell, hz]

lemma bowlFold_wkts (rows : List (Option BowlRow)) (acc : BowlAcc) :
    (rows.foldl bowlStep acc).wkts = acc.wkts + (rows.map bowlWktsOf).sum := by
  induction rows generalizing acc with
  | nil => simp
  | cons r rows ih =>
      rcases r with _ | r
      · simp [List.foldl_cons, bowlStep, bowlWktsOf, ih]
      · rw [List.foldl_cons, ih]
        simp [bowlStep, bowlWktsOf]
        ring

lemma bowlFold_mat (rows : List (Option BowlRow)) (acc : BowlAcc) :
    (rows.foldl bowlStep acc).mat = acc.mat + (rows.map bowlMatOf).sum := by
  induction rows generalizing acc with
  | nil => simp
  | cons r rows ih =>
      rcases r with _ | r
      · simp [List.foldl_cons, bowlStep, bowlMatOf, ih]
      · rw [List.foldl_cons, ih]
        simp [bowlStep, bowlMatOf]
        ring

lemma bowlFold_ave_stay (rows : List (Option BowlRow)) (acc : BowlAcc)
    (h : acc.ave ≠ 0) : (rows.foldl bowlStep acc).ave = acc.ave := by
  induction rows generalizing acc with
  | nil => rfl
  | cons r rows ih =>
      rcases r with _ | r
      · exact ih acc h
      · have hstep : (bowlStep acc (some r)).ave = acc.ave := by
          simp [bowlStep, h]
        rw [List.foldl_cons, ih _ (by rw [hstep]; exact h), hstep]

lemma bowlFold_ave (rows : List (Option BowlRow)) (acc : BowlAcc)
    (h : acc.ave = 0) :
    (rows.foldl bowlStep acc).ave = firstNonzeroQ (rows.map bowlAveOf) := by
  induction rows generalizing acc with
  | nil => simpa [firstNonzeroQ] using h
  | cons r rows ih =>
      rw [List.foldl_cons, List.map_cons]
      rcases r with _ | r
      · rw [show bowlStep acc none = acc from rfl, ih acc h]
        simp [bowlAveOf, firstNonzeroQ]
      · by_cases ht : truthyCell r.aveCell = true
        · by_cases hz : cleanCell r.aveCell = 0
          · have hstep : (bowlStep acc (some r)).ave = 0 := by
              simp [bowlStep, h, ht, hz]
            rw [ih _ hstep]
            simp [firstNonzeroQ, bowlAveOf, hz]
          · have hstep : (bowlStep acc (some r)).ave
                = cleanCell r.aveCell := by
              simp [bowlStep, h, ht]
            rw [bowlFold_ave_stay rows _ (by rw [hstep]; exact hz), hstep]
            simp [firstNonzeroQ, bowlAveOf, hz]
        · have ht' : truthyCell r.aveCell = false := by simpa using ht
          have hz : cleanCell r.aveCell = 0 := cleanCell_of_falsy _ ht'
          have hstep : (bowlStep acc (some r)).ave = acc.ave := by
            simp [bowlStep, ht']
          rw [ih _ (by rw [hstep]; exact h)]
          simp [firstNonzeroQ, bowlAveOf, hz]

/-- C2 (amended): per-player merging takes the combined batting average
(and likewise the bowling average) from the first format in priority order
Test, ODI, T20 whose cleaned average is nonzero, never overwriting it with
a later format — in particular a nonzero Test average wins over any ODI
value — while `Runs`, `Mat` and `Wkts` are summed over all formats
present; the career span is taken from the first format whose *raw* Span
value is truthy, where a blank (NaN) cell counts as truthy, so a blank
Test span locks the span instead of falling through to a later format's
nonempty span. -/
theorem combine_priority_correct (d : PlayerData) :
    (combineBatting d).ave =
      firstNonzeroQ [batAveOf d.batTest, batAveOf d.batODI, batAveOf d.batT20] ∧
    (combineBatting d).span =
      firstTruthyCell [rawSpanOf d.batTest, rawSpanOf d.batODI, rawSpanOf d.batT20] ∧
    (combineBatting d).runs =
      batRunsOf d.batTest + batRunsOf d.batODI + batRunsOf d.batT20 ∧
    (combineBatting d).mat =
      batMatOf d.batTest + batMatOf d.batODI + batMatOf d.batT20 ∧
    (combineBowling d).ave =
      firstNonzeroQ [bowlAveOf d.bowlTest, bowlAveOf d.bowlODI, bowlAveOf d.bowlT20] ∧
    (combineBowling d).wkts =
      bowlWktsOf d.bowlTest + bowlWktsOf d.bowlODI + bowlWktsOf d.bowlT20 ∧
    (combineBowling d).mat =
      bowlMatOf d.bowlTest + bowlMatOf d.bowlODI + bowlMatOf d.bowlT20 ∧
    (batAveOf d.batTest ≠ 0 → (combineBatting d).ave = batAveOf d.batTest) := by
  have have1 : (combineBatting d).ave =
      firstNonzeroQ [batAveOf d.batTest, batAveOf d.batODI, batAveOf d.batT20] := by
    unfold combineBatting
    rw [batFold_ave _ _ rfl]
    simp
  refine ⟨have1, ?_, ?_, ?_, ?_, ?_, ?_, ?_⟩
  · unfold combineBatting
    rw [batFold_span _ _ (by decide)]
    simp
  · unfold combineBatting
    rw [batFold_runs]
    simp [add_assoc]
  · unfold combineBatting
    rw [batFold_mat]
    simp [add_assoc]
  · unfold combineBowling
    rw [bowlFold_ave _ _ rfl]
    simp
  · unfold combineBowling
    rw [bowlFold_wkts]
    simp [add_assoc]
  · unfold combineBowling
    rw [bowlFold_mat]
    simp [add_assoc]
  · intro hne
    rw [have1]
    simp [firstNonzeroQ, hne]

/-- Per-player data exercising the merge priority: a Test batting average
and an ODI batting average are both present. -/
def mergePriorityData : PlayerData :=
  { batTest := some { aveCell := some (Cell.text "55") }
    batODI := some { aveCell := some (Cell.text "45") } }

/-- Witness for C2: with a nonzero Test average and an ODI average also
present, the combined batting average is the Test value. -/
theorem combine_priority_correct_witness :
    (combineBatting mergePriorityData).ave = batAveOf mergePriorityData.batTest :=
  (combine_priority_correct mergePriorityData).2.2.2.2.2.2.2 (by decide)

/-- Per-player data whose Test batting row has a blank (NaN) span while the
ODI row's span is "1990-2005". -/
def nanSpanData : PlayerData :=
  { batTest := some { spanCell := some Cell.blank }
    batODI := some { spanCell := some (Cell.text "1990-2005") } }

/-- Counterexample to C2 as stated: the claim's "first format whose span is
nonempty" reading picks the ODI span "1990-2005" (whose era is "Classic"),
but the program assigns the truthy NaN of the blank Test span, blocks the
ODI value, and the era comes out "Unknown" instead. -/
theorem combine_priority_counterexample :
    firstNonemptyStr [spanTextOf nanSpanData.batTest,
      spanTextOf nanSpanData.batODI, spanTextOf nanSpanData.batT20]
      = "1990-2005" ∧
    (combineBatting nanSpanData).span ≠ Cell.text "1990-2005" ∧
    (combineBatting nanSpanData).span = Cell.blank ∧
    determine_era (spanToOptString (combineBatting nanSpanData).span)
      = "Unknown" ∧
    determine_era (some "1990-2005") = "Classic" := by
  have hspan : (combineBatting nanSpanData).span = Cell.blank := by
    have := batFold_span [nanSpanData.batTest, nanSpanData.batODI,
      nanSpanData.batT20] ⟨0, 0, 0, Cell.text ""⟩ (by decide)
    rw [combineBatting, this]
    decide
  refine ⟨by decide, ?_, hspan, ?_, by decide⟩
  · rw [hspan]
    decide
  · rw [hspan]
    decide

/-- Player with 99 batting matches and 5000 runs (filter boundary, below). -/
def lowMatchData : PlayerData :=
  { batTest := some
      { runsCell := some (Cell.text "5000")
        matCell := some (Cell.text "99") } }

/-- Player with 100 batting matches and 5000 runs (filter boundary, at). -/
def highMatchData : PlayerData :=
  { batTest := some
      { runsCell := some (Cell.text "5000")
        matCell := some (Cell.text "100") } }

/-- C3: a player is excluded exactly when total matches < 100 or
(total matches = 0 and runs = 0 and wickets = 0), with total matches the
maximum of combined batting and bowling matches; a player with 99 matches
and 5000 runs is excluded, one with 100 matches is included. -/
theorem inclusion_filter_correct :
    (∀ (n : String) (d : PlayerData),
      processPlayer n d = none ↔
        max (combineBatting d).mat (combineBowling d).mat < 100 ∨
        (max (combineBatting d).mat (combineBowling d).mat = 0 ∧
         (combineBatting d).runs = 0 ∧ (combineBowling d).wkts = 0)) ∧
    processPlayer "Low" lowMatchData = none ∧
    (processPlayer "High" highMatchData).isSome = true := by
  have c99 : clean_numeric_value (some "99") = 99 := by decide
  have c100 : clean_numeric_value (some "100") = 100 := by decide
  have c5000 : clean_numeric_value (some "5000") = 5000 := by decide
  have hmain : ∀ (n : String) (d : PlayerData),
      processPlayer n d = none ↔
        max (combineBatting d).mat (combineBowling d).mat < 100 ∨
        (max (combineBatting d).mat (combineBowling d).mat = 0 ∧
         (combineBatting d).runs = 0 ∧ (combineBowling d).wkts = 0) := by
    intro n d
    unfold processPlayer
    dsimp only
    split_ifs with h
    · simpa using h
    · exact iff_of_false (by simp) h
  have hcbLow : combineBatting lowMatchData
      = ⟨5000, 99, 0, Cell.text ""⟩ := by
    simp [lowMatchData, combineBatting, batStep, truthyCell, truthyVal,
      cleanCell, cellToOptString, c99, c5000]
  have hcbHigh : combineBatting highMatchData
      = ⟨5000, 100, 0, Cell.text ""⟩ := by
    simp [highMatchData, combineBatting, batStep, truthyCell, truthyVal,
      cleanCell, cellToOptString, c100, c5000]
  have hcwLow : combineBowling lowMatchData = ⟨0, 0, 0⟩ := rfl
  have hcwHigh : combineBowling highMatchData = ⟨0, 0, 0⟩ := rfl
  refine ⟨hmain, ?_, ?_⟩
  · refine (hmain "Low" lowMatchData).mpr (Or.inl ?_)
    rw [hcbLow, hcwLow]
    norm_num [max_def]
  · rw [← Option.ne_none_iff_isSome]
    intro hnone
    have hcond := (hmain "High" highMatchData).mp hnone
    rw [hcbHigh, hcwHigh] at hcond
    norm_num [max_def] at hcond

/-- Player from the end-to-end example: one Test batting row with 5000
runs, 150 matches, average 40.5 and span 2000–2015. -/
def ausData : PlayerData :=
  { batTest := some
      { runsCell := some (Cell.text "5000")
        matCell := some (Cell.text "150")
        aveCell := some (Cell.text "40.5")
        spanCell := some (Cell.text "2000-2015") } }

/-- Output record the pipeline produces for `ausData` under the name
"A (AUS)". -/
def ausRec : PlayerRecord :=
  ⟨"A", "Australia", "Batsman", 150, 5000, 0, 40.5, "Modern"⟩

lemma clean_405 : clean_numeric_value (some "40.5") = 40.5 := by
  have h1 : digitsToNat ['4', '0'] = 40 := by decide
  have h2 : digitsToNat ['5'] = 5 := by decide
  simp +decide [clean_numeric_value, floatOfDigitsDot, pyStrip, pyRemoveChar,
    splitOnChar, h1, h2]
  norm_num

lemma processPlayer_aus : processPlayer "A (AUS)" ausData = some ausRec := by
  have c5000 : clean_numeric_value (some "5000") = 5000 := by decide
  have c150 : clean_numeric_value (some "150") = 150 := by decide
  have hcb : combineBatting ausData
      = ⟨5000, 150, 40.5, Cell.text "2000-2015"⟩ := by
    simp [ausData, combineBatting, batStep, truthyCell, truthyVal,
      cleanCell, cellToOptString, c5000, c150, clean_405]
  have hcw : combineBowling ausData = ⟨0, 0, 0⟩ := rfl
  have hcf : combineFielding ausData = ⟨0, 0⟩ := rfl
  have hrole : determine_role ⟨5000, 150, 40.5, Cell.text "2000-2015"⟩
      ⟨0, 0, 0⟩ ⟨0, 0⟩
      = "Batsman" := by
    unfold determine_role
    dsimp only
    norm_num
  have hcountry : get_country_from_name "A (AUS)" = "Australia" := by decide
  have hera : determine_era (some "2000-2015") = "Modern" := by decide
  have hname : String.mk (pyStrip ((splitOnChar '(' "A (AUS)".toList).getD 0 []))
      = "A" := by decide
  unfold processPlayer
  dsimp only
  rw [hcb, hcw, hcf]
  rw [if_neg (by norm_num [max_def])]
  rw [hrole]
  rw [show spanToOptString (Cell.text "2000-2015") = some "2000-2015" from rfl]
  rw [hcountry, hera]
  simp +decide [ausRec]
  norm_num [max_def]

/-- C7: for every included player the output "average" field is the
combined batting average when that is positive, else the combined bowling
average when the resolved role is "Bowler", else 0. -/
theorem average_field_correct (n : String) (d : PlayerData) (r : PlayerRecord)
    (h : processPlayer n d = some r) :
    r.average =
      (if (combineBatting d).ave > 0 then (combineBatting d).ave
       else if r.role = "Bowler" then (combineBowling d).ave else 0) := by
  unfold processPlayer at h
  dsimp only at h
  split_ifs at h <;> (injection h with h; subst h; simp_all) <;>
    rw [if_neg (by linarith)]

/-- Witness for C7: the end-to-end record of `ausData` has average 40.5,
the positive batting average. -/
theorem average_field_correct_witness :
    ausRec.average =
      (if (combineBatting ausData).ave > 0 then (combineBatting ausData).ave
       else if ausRec.role = "Bowler" then (combineBowling ausData).ave
       else 0) :=
  average_field_correct "A (AUS)" ausData ausRec processPlayer_aus

/-- C8: the final list is sorted descending by runs + wickets × 50, is a
permutation of the records the per-player stage produced, and the sort is
stable: any equal-key subsequence of the unsorted list is still a
subsequence of the output. -/
theorem final_sort_correct (players : List (String × PlayerData)) :
    List.Pairwise (fun a b => sortKey b ≤ sortKey a)
      (process_cricket_data players) ∧
    (process_cricket_data players).Perm
      (players.filterMap (fun p => processPlayer p.1 p.2)) ∧
    (∀ c : List PlayerRecord,
      c.Pairwise (fun a b => sortKey a = sortKey b) →
      c.Sublist (players.filterMap (fun p => processPlayer p.1 p.2)) →
      c.Sublist (process_cricket_data players)) := by
  have htrans : ∀ a b c : PlayerRecord, sortLE a b → sortLE b c → sortLE a c := by
    intro a b c hab hbc
    simp only [sortLE, decide_eq_true_eq] at hab hbc ⊢
    exact le_trans hbc hab
  have htotal : ∀ a b : PlayerRecord, sortLE a b || sortLE b a := by
    intro a b
    simp only [sortLE, Bool.or_eq_true, decide_eq_true_eq]
    exact le_total _ _
  refine ⟨?_, ?_, ?_⟩
  · unfold process_cricket_data
    exact (List.sorted_mergeSort htrans htotal _).imp
      (fun h => by simpa [sortLE] using h)
  · exact List.mergeSort_perm _ _
  · intro c hc hsub
    unfold process_cricket_data
    exact List.sublist_mergeSort htrans htotal
      (hc.imp (fun h => by
        simp only [sortLE, decide_eq_true_eq]
        exact h.symm.le)) hsub

/-- Witness for C8: the stability part applied to the empty subsequence of
an empty input. -/
theorem final_sort_correct_witness :
    ([] : List PlayerRecord).Sublist (process_cricket_data []) :=
  (final_sort_correct []).2.2 [] List.Pairwise.nil (List.nil_sublist _)

lemma foldl_skip_append (P : List Char → Bool) (f : List Char → String) :
    ∀ (l : List (List Char)) (acc : List String),
      l.foldl (fun a c => if P c then a else a ++ [f c]) acc
        = acc ++ (l.filter (fun c => !(P c))).map f := by
  intro l
  induction l with
  | nil => intro acc; simp
  | cons c l ih =>
      intro acc
      rw [List.foldl_cons]
      cases hP : P c <;> simp [hP, ih, List.filter_cons]

lemma find_pair_diag (l : List String) (q : String → Bool) :
    (match (l.map (fun c => (c, c))).find? (fun p => q p.1) with
     | some p => p.2
     | none => "Unknown")
    = (match l.find? q with
       | some c => c
       | none => "Unknown") := by
  induction l with
  | nil => rfl
  | cons c l ih =>
      rw [List.map_cons]
      cases hq : q c
      · rw [List.find?_cons_of_neg _ (by simp [hq]),
          List.find?_cons_of_neg _ (by simp [hq])]
        exact ih
      · rw [List.find?_cons_of_pos _ (by simp [hq]),
          List.find?_cons_of_pos _ (by simp [hq])]

lemma fallback_eq (name : String) : fallbackCountry name = fallbackSpec name := by
  unfold fallbackCountry fallbackSpec
  have hmap : common_patterns = knownCountries.map (fun c => (c, c)) := rfl
  rw [hmap]
  exact find_pair_diag knownCountries
    (fun c => containsList (c.toList.map Char.toLower)
      (name.toList.map Char.toLower))

/-- C4: `get_country_from_name` splits the parenthesized segment on "/",
trims the tokens, discards the regional exclusion set, maps code tokens
through the fixed table (keeping unmatched tokens verbatim) and returns the
first survivor; with no parenthesized segment or no survivor it falls back
to case-insensitive substring matching over the ten known country names,
else "Unknown"; "Player (Asia/SL)" gives "Sri Lanka" and "Someone (XI)"
gives "Unknown". -/
theorem get_country_correct :
    (∀ name : String, get_country_from_name name = countrySpec name) ∧
    get_country_from_name "Player (Asia/SL)" = "Sri Lanka" ∧
    get_country_from_name "Someone (XI)" = "Unknown" := by
  refine ⟨?_, by decide, by decide⟩
  intro name
  unfold get_country_from_name countrySpec
  dsimp only
  split_ifs with h
  · rw [foldl_skip_append
      (fun c => (exclude_teams.map String.toList).contains c) resolveToken]
    simp only [List.nil_append]
    cases hl : ((splitOnChar '/' (parenSegment name.toList)).map pyStrip).filter
        (fun t => !((exclude_teams.map String.toList).contains t)) with
    | nil => simpa using fallback_eq name
    | cons c cs => simp
  · exact fallback_eq name

/-- C10: the parenthetical code lookup is case-sensitive — a token equal to
a table code only up to letter case is kept verbatim, not mapped — while
the no-parentheses fallback matching of full country names is
case-insensitive. -/
theorem country_lookup_case_correct :
    (∀ tok key full : String, (key, full) ∈ country_mapping →
      tok.toList.map Char.toLower = key.toList.map Char.toLower →
      tok ≠ key → resolveToken tok.toList = tok) ∧
    get_country_from_name "Player (Aus)" = "Aus" ∧
    get_country_from_name "Player (AUS)" = "Australia" ∧
    (∀ n₁ n₂ : String,
      n₁.toList.map Char.toLower = n₂.toList.map Char.toLower →
      fallbackCountry n₁ = fallbackCountry n₂) ∧
    get_country_from_name "mr australia" = "Australia" := by
  have hinj : ∀ p ∈ country_mapping, ∀ q ∈ country_mapping,
      p.1.toList.map Char.toLower = q.1.toList.map Char.toLower →
      p.1 = q.1 := by decide
  refine ⟨?_, by decide, by decide, ?_, by decide⟩
  · intro tok key full hmem hlow hne
    have hfind : country_mapping.find? (fun p => p.1.toList == tok.toList)
        = none := by
      rw [List.find?_eq_none]
      intro q hq
      simp only [beq_iff_eq]
      intro hql
      have hq1 : q.1 = tok := String.ext hql
      have : q.1 = key := hinj q hq (key, full) hmem (by rw [hq1, hlow])
      exact hne (hq1 ▸ this)
    unfold resolveToken
    rw [hfind]
    rfl
  · intro n₁ n₂ h
    unfold fallbackCountry
    rw [h]

/-- Witness for C10: "Aus" differs from the table key "AUS" only by case
and is kept verbatim; the fallback is invariant under case changes. -/
theorem country_lookup_case_correct_witness :
    resolveToken "Aus".toList = "Aus" ∧
    fallbackCountry "INDIA star" = fallbackCountry "india STAR" :=
  ⟨country_lookup_case_correct.1 "Aus" "AUS" "Australia" (by decide)
      (by decide) (by decide),
   country_lookup_case_correct.2.2.2.1 "INDIA star" "india STAR" (by decide)⟩

example : clean_numeric_value (some "1,234") = 1234 := by decide
example : clean_numeric_value (some "50.25*") = 50.25 := by
  have h1 : digitsToNat ['5', '0'] = 50 := by decide
  have h2 : digitsToNat ['2', '5'] = 25 := by decide
  simp +decide [clean_numeric_value, floatOfDigitsDot, pyStrip, pyRemoveChar,
    splitOnChar, h1, h2]
  norm_num
example : clean_numeric_value (some "abc") = 0 := by decide
example : clean_numeric_value (some "-5") = 5 := by decide
example : determine_era (some "2008-2023") = "Modern" := by decide
example : determine_era (some "1970-1989") = "Vintage" := by decide
example : get_country_from_name "Player (Asia/SL)" = "Sri Lanka" := by decide
example : get_country_from_name "Someone (XI)" = "Unknown" := by decide
example : get_country_from_name "Sachin Tendulkar (INDIA)" = "India" := by decide
example : get_country_from_name "No Parens Australia Batsman" = "Australia" := by decide
